import Mathlib

/-!
# MongoMcp server core: shallow embedding and verification

A shallow embedding of the dynamic schema registry and operation dispatcher of
`src/server.js` (the MongoMcp MCP server), together with theorems settling the
frozen claims about it.

Conventions of the embedding:
* JavaScript `Map` objects become association lists over `String` keys with
  JS `Map` semantics (`mapGet`, `mapSet`, `mapDelete`).
* The document store (MongoDB, declared an out-of-scope black box by the spec)
  is modelled at the boundary the spec grants in section 6: a finite map from
  collection name to a list of documents, with find/insert/drop/rename/create
  operations.
* Fallible JavaScript code (functions that `throw`) returns `Except String`.
-/

namespace MongoMcp

/-! ## JS Map primitives

`this.dynamicModels` is a JS `Map`.  A `Map` keeps at most one entry per key:
`get` returns the entry, `set` overwrites in place or appends, `delete`
removes the entry. -/

/-- JS `Map.get`: the first entry for the key, if any. -/
def mapGet {α : Type} : List (String × α) → String → Option α
  | [], _ => none
  | (k2, v) :: rest, k => if k2 = k then some v else mapGet rest k

/-- JS `Map.set`: overwrite the entry in place if the key is present, append otherwise. -/
def mapSet {α : Type} : List (String × α) → String → α → List (String × α)
  | [], k, v => [(k, v)]
  | (k2, v2) :: rest, k, v =>
      if k2 = k then (k, v) :: rest else (k2, v2) :: mapSet rest k v

/-- JS `Map.delete`: remove the entry for the key. -/
def mapDelete {α : Type} : List (String × α) → String → List (String × α)
  | [], _ => []
  | (k2, v) :: rest, k => if k2 = k then rest else (k2, v) :: mapDelete rest k

/-- The keys of an association list. -/
def mapKeys {α : Type} (m : List (String × α)) : List String :=
  m.map Prod.fst

@[simp]
theorem mapGet_mapSet_self {α : Type} (m : List (String × α)) (k : String) (v : α) :
    mapGet (mapSet m k v) k = some v := by
  induction m with
  | nil => simp [mapSet, mapGet]
  | cons p rest ih =>
      obtain ⟨k2, v2⟩ := p
      by_cases h : k2 = k
      · simp [mapSet, mapGet, h]
      · simp [mapSet, mapGet, h, ih]

theorem mapGet_mapSet_ne {α : Type} (m : List (String × α)) (k k2 : String) (v : α)
    (h : k2 ≠ k) : mapGet (mapSet m k v) k2 = mapGet m k2 := by
  induction m with
  | nil => simp [mapSet, mapGet, Ne.symm h]
  | cons p rest ih =>
      obtain ⟨k3, v3⟩ := p
      by_cases h3 : k3 = k
      · subst h3
        simp [mapSet, mapGet, Ne.symm h]
      · simp [mapSet, mapGet, h3, ih]

theorem mapGet_eq_none_of_not_mem {α : Type} (m : List (String × α)) (k : String)
    (h : k ∉ mapKeys m) : mapGet m k = none := by
  induction m with
  | nil => simp [mapGet]
  | cons p rest ih =>
      obtain ⟨k2, v⟩ := p
      simp only [mapKeys, List.map_cons, List.mem_cons] at h
      push_neg at h
      simp [mapGet, Ne.symm h.1, ih (by simpa [mapKeys] using h.2)]

theorem mem_mapKeys_of_mapGet_isSome {α : Type} (m : List (String × α)) (k : String)
    (h : (mapGet m k).isSome) : k ∈ mapKeys m := by
  induction m with
  | nil => simp [mapGet] at h
  | cons p rest ih =>
      obtain ⟨k2, v⟩ := p
      by_cases h2 : k2 = k
      · simp [mapKeys, h2]
      · simp only [mapGet, h2, if_false] at h
        simp only [mapKeys, List.map_cons, List.mem_cons]
        exact Or.inr (by simpa [mapKeys] using ih h)

theorem not_mem_mapKeys_mapDelete {α : Type} (m : List (String × α)) (k : String)
    (hnd : (mapKeys m).Nodup) : k ∉ mapKeys (mapDelete m k) := by
  induction m with
  | nil => simp [mapDelete, mapKeys]
  | cons p rest ih =>
      obtain ⟨k2, v⟩ := p
      simp only [mapKeys, List.map_cons, List.nodup_cons] at hnd
      by_cases h2 : k2 = k
      · subst h2
        simpa [mapDelete, mapKeys] using hnd.1
      · simp only [mapDelete, h2, if_false, mapKeys, List.map_cons, List.mem_cons]
        push_neg
        refine ⟨Ne.symm h2, ?_⟩
        simpa [mapKeys] using ih hnd.2

theorem mapGet_mapDelete_self {α : Type} (m : List (String × α)) (k : String)
    (hnd : (mapKeys m).Nodup) : mapGet (mapDelete m k) k = none := by
  by_contra h
  have hs : (mapGet (mapDelete m k) k).isSome := by
    cases hh : mapGet (mapDelete m k) k with
    | none => exact absurd hh h
    | some v => simp
  exact not_mem_mapKeys_mapDelete m k hnd (mem_mapKeys_of_mapGet_isSome _ _ hs)

/-! ## Operation dispatcher

`setupToolHandlers` registers two request handlers.  The
`ListToolsRequestSchema` handler advertises a fixed array of tool
descriptions; the `CallToolRequestSchema` handler switches on
`request.params.name` inside a try/catch. -/

/-- Handler tags, one per `case` of the `CallToolRequestSchema` switch
(src/server.js lines 372-399). -/
inductive OpHandler where
  | addDsaQuestion
  | getDsaQuestions
  | getCollectionStats
  | getAllCollections
  | createCollection
  | deleteCollection
  | getDocuments
  | addDocument
  | updateCollectionName
  deriving DecidableEq, Repr

/-- The tool names advertised by the `ListToolsRequestSchema` handler, in the
order of the `tools` array (src/server.js lines 147-366). -/
def advertisedToolNames : List String :=
  ["add_dsa_question", "get_dsa_questions", "get_all_collections",
   "create_collection", "delete_collection", "get_documents",
   "add_document", "update_collection_name", "get_collection_stats"]

/-- The dispatch switch of the `CallToolRequestSchema` handler: maps an
operation name to its handler; `none` is the `default` branch. -/
def resolveOp (name : String) : Option OpHandler :=
  if name = "add_dsa_question" then some .addDsaQuestion
  else if name = "get_dsa_questions" then some .getDsaQuestions
  else if name = "get_collection_stats" then some .getCollectionStats
  else if name = "get_all_collections" then some .getAllCollections
  else if name = "create_collection" then some .createCollection
  else if name = "delete_collection" then some .deleteCollection
  else if name = "get_documents" then some .getDocuments
  else if name = "add_document" then some .addDocument
  else if name = "update_collection_name" then some .updateCollectionName
  else none

/-- The two `McpError` codes the dispatcher can construct:
`ErrorCode.MethodNotFound` at the `default` branch, `ErrorCode.InternalError`
in the surrounding `catch`. -/
inductive McpErrorCode where
  | methodNotFound
  | internalError
  deriving DecidableEq, Repr

/-- An `McpError` value: code plus message. -/
structure McpFailure where
  code : McpErrorCode
  message : String
  deriving DecidableEq, Repr

/-- Outcome of one `CallToolRequestSchema` dispatch, at the resolution level:
either a handler was selected and invoked, or an error escaped. -/
inductive DispatchOutcome where
  | invoked (h : OpHandler)
  | failed (e : McpFailure)
  deriving DecidableEq, Repr

/-- Body of the `try` block: the switch either invokes the matching handler or
throws `McpError(ErrorCode.MethodNotFound, "Unknown tool: " + name)`
(src/server.js lines 395-399). -/
def dispatchBody (name : String) : DispatchOutcome :=
  match resolveOp name with
  | some h => .invoked h
  | none => .failed ⟨.methodNotFound, "Unknown tool: " ++ name⟩

/-- The `catch` branch (src/server.js lines 401-406): every error thrown inside
the `try` block — connection failures, handler failures, and the
method-not-found error itself — is rethrown as
`McpError(ErrorCode.InternalError, "Tool execution failed: " + message)`. -/
def wrapCaught (message : String) : McpFailure :=
  ⟨.internalError, "Tool execution failed: " ++ message⟩

/-- The full `CallToolRequestSchema` handler: the switch inside the try/catch. -/
def callTool (name : String) : DispatchOutcome :=
  match dispatchBody name with
  | .invoked h => .invoked h
  | .failed e => .failed (wrapCaught e.message)

/-! ## Dynamic schema grammar

`createDynamicSchema` (src/server.js lines 75-116) walks the caller-supplied
`schema` object and compiles each field into a mongoose schema field. -/

/-- A primitive type tag in the compiled schema. -/
inductive FieldType where
  | string
  | number
  | boolean
  | date
  | mixed
  deriving DecidableEq, Repr

/-- One field entry as supplied by the caller in the `schema` argument of
`create_collection`: a `type` string plus optional `required` and `itemType`
entries.  `none` models an absent (`undefined`) JS property. -/
structure FieldConfig where
  type : String
  required : Option Bool
  itemType : Option String
  deriving DecidableEq, Repr

/-- A compiled mongoose schema field, as `createDynamicSchema` builds it:
recognized primitive kinds become `\x7b type: T, required: r \x7d` and carry the
`required` flag; `Array` kinds become `[\x7b type: T \x7d]` and carry no
`required` flag at all. -/
inductive SchemaField where
  | prim (t : FieldType) (required : Bool)
  | arrayOf (item : FieldType)
  deriving DecidableEq, Repr

/-- One iteration of the `for ... of Object.entries(schemaDefinition)` loop in
`createDynamicSchema`: the if/else chain on `fieldConfig.type`.  A type string
matching none of the six recognized values leaves the field out of the compiled
schema (`none`); `fieldConfig.required || false` is `Option.getD false`; for
`Array`, `itemType` values other than `String` and `Number` fall into the
`Mixed` branch and the `required` entry is never read. -/
def compileField (fc : FieldConfig) : Option SchemaField :=
  if fc.type = "String" then some (.prim .string (fc.required.getD false))
  else if fc.type = "Number" then some (.prim .number (fc.required.getD false))
  else if fc.type = "Boolean" then some (.prim .boolean (fc.required.getD false))
  else if fc.type = "Date" then some (.prim .date (fc.required.getD false))
  else if fc.type = "Array" then
    if fc.itemType = some "String" then some (.arrayOf .string)
    else if fc.itemType = some "Number" then some (.arrayOf .number)
    else some (.arrayOf .mixed)
  else if fc.type = "Object" then some (.prim .mixed (fc.required.getD false))
  else none

/-- `createDynamicSchema`: compile every recognized field, preserving
`Object.entries` order and silently dropping unrecognized kinds. -/
def createDynamicSchema (schemaDefinition : List (String × FieldConfig)) :
    List (String × SchemaField) :=
  schemaDefinition.filterMap fun p => (compileField p.2).map fun f => (p.1, f)

/-- The `itemType` enum advertised in the `create_collection` input schema
(src/server.js lines 264-268). -/
def itemTypeEnum : List String :=
  ["String", "Number", "Boolean", "Mixed"]

/-- A descriptor set that is valid in the sense of spec section 4.1: every
field uses a recognized kind, and `itemType` appears only on array fields with
a recognized item kind. -/
def validFieldConfig (fc : FieldConfig) : Bool :=
  if fc.type = "Array" then
    match fc.itemType with
    | none => true
    | some it => itemTypeEnum.contains it
  else
    (["String", "Number", "Boolean", "Date", "Object"].contains fc.type)
      && fc.itemType.isNone

/-- Validity of a whole descriptor set. -/
def validDescriptorSet (d : List (String × FieldConfig)) : Bool :=
  d.all fun p => validFieldConfig p.2

/-! ## Sorting at the store boundary

The store applies `sort(\x7bcreatedAt: -1\x7d)` (and the stats pipeline applies
`$sort: \x7bcount: -1\x7d`) before `limit`.  We model it as a stable insertion
sort on a descending natural-number key; the spec only fixes the order up to
ties ("ties broken by arbitrary stable order"). -/

/-- Stable insertion into a list sorted by descending key: the new element goes
before the first strictly smaller key, after equal keys. -/
def insertByKeyDesc {α : Type} (key : α → Nat) (x : α) : List α → List α
  | [] => [x]
  | y :: ys => if key y < key x then x :: y :: ys else y :: insertByKeyDesc key x ys

/-- Stable sort by descending key. -/
def sortByKeyDesc {α : Type} (key : α → Nat) : List α → List α
  | [] => []
  | x :: xs => insertByKeyDesc key x (sortByKeyDesc key xs)

theorem mem_insertByKeyDesc {α : Type} (key : α → Nat) (x a : α) (l : List α) :
    a ∈ insertByKeyDesc key x l ↔ a = x ∨ a ∈ l := by
  induction l with
  | nil => simp [insertByKeyDesc]
  | cons y ys ih =>
      by_cases h : key y < key x
      · simp [insertByKeyDesc, h]
      · simp only [insertByKeyDesc, h, if_false, List.mem_cons, ih]
        tauto

theorem mem_sortByKeyDesc {α : Type} (key : α → Nat) (a : α) (l : List α) :
    a ∈ sortByKeyDesc key l ↔ a ∈ l := by
  induction l with
  | nil => simp [sortByKeyDesc]
  | cons x xs ih =>
      simp [sortByKeyDesc, mem_insertByKeyDesc, ih]

theorem sorted_insertByKeyDesc {α : Type} (key : α → Nat) (x : α) (l : List α)
    (hl : l.Pairwise fun a b => key b ≤ key a) :
    (insertByKeyDesc key x l).Pairwise fun a b => key b ≤ key a := by
  induction l with
  | nil => simp [insertByKeyDesc]
  | cons y ys ih =>
      rcases List.pairwise_cons.mp hl with ⟨hy, hys⟩
      by_cases h : key y < key x
      · simp only [insertByKeyDesc, h, if_true]
        refine List.pairwise_cons.mpr ⟨?_, hl⟩
        intro z hz
        rcases List.mem_cons.mp hz with rfl | hz2
        · exact Nat.le_of_lt h
        · exact Nat.le_trans (hy z hz2) (Nat.le_of_lt h)
      · simp only [insertByKeyDesc, h, if_false]
        refine List.pairwise_cons.mpr ⟨?_, ih hys⟩
        intro z hz
        rcases (mem_insertByKeyDesc key x z ys).mp hz with rfl | hz2
        · exact Nat.le_of_not_lt h
        · exact hy z hz2

theorem sorted_sortByKeyDesc {α : Type} (key : α → Nat) (l : List α) :
    (sortByKeyDesc key l).Pairwise fun a b => key b ≤ key a := by
  induction l with
  | nil => simp [sortByKeyDesc]
  | cons x xs ih => exact sorted_insertByKeyDesc key x _ ih

/-! ## The fixed question schema

`questionSchema` (src/server.js lines 53-70) and the handlers bound to the
`DsaQuestions` collection.  Timestamps are store-assigned; we carry `createdAt`
as a natural number so the `sort(\x7bcreatedAt: -1\x7d)` semantics are expressible. -/

/-- The `level` enum of the question schema. -/
inductive Level where
  | easy
  | medium
  | hard
  deriving DecidableEq, Repr

/-- The string stored for each level value. -/
def levelToString : Level → String
  | .easy => "easy"
  | .medium => "medium"
  | .hard => "hard"

/-- One entry of the `testcases` array. -/
structure TestCase where
  input : String
  output : String
  deriving DecidableEq, Repr

/-- A stored document of the `DsaQuestions` collection. -/
structure QuestionDoc where
  name : String
  description : String
  datastructure : List String
  algorithm : List String
  constraints : String
  testcases : List TestCase
  level : Level
  createdAt : Nat
  deriving DecidableEq, Repr

/-- The optional `filter` argument of `get_dsa_questions`; each entry is a JS
value that may be absent. -/
structure DsaFilter where
  level : Option String
  datastructure : Option String
  algorithm : Option String
  deriving DecidableEq, Repr

/-- The filter with no entries. -/
def emptyDsaFilter : DsaFilter := ⟨none, none, none⟩

/-- JS truthiness of an optional string argument: an absent value and the empty
string are both falsy, so `if (filter.level)` skips them. -/
def truthyStr : Option String → Option String
  | none => none
  | some s => if s = "" then none else some s

/-- The Mongo query object built by `getDsaQuestions` (src/server.js lines
442-454), as a predicate on stored documents: `level` is an exact match,
`datastructure` and `algorithm` are `$in: [token]` membership tests against
the stored arrays. -/
def matchesDsaQuery (f : DsaFilter) (q : QuestionDoc) : Bool :=
  (match truthyStr f.level with
   | some l => levelToString q.level == l
   | none => true)
  && (match truthyStr f.datastructure with
      | some d => q.datastructure.contains d
      | none => true)
  && (match truthyStr f.algorithm with
      | some a => q.algorithm.contains a
      | none => true)

/-- `getDsaQuestions` (src/server.js lines 438-476):
`Question.find(query).limit(limit).sort(\x7bcreatedAt: -1\x7d)` — the store
filters, sorts by creation time descending, then applies the limit.  Absent
`filter` defaults to `\x7b\x7d` and absent `limit` defaults to `10` through the
destructuring defaults on line 439. -/
def getDsaQuestions (db : List QuestionDoc) (filter : Option DsaFilter)
    (limit : Option Nat) : List QuestionDoc :=
  (sortByKeyDesc (fun q => q.createdAt)
      (db.filter (matchesDsaQuery (filter.getD emptyDsaFilter)))).take (limit.getD 10)

/-! ## The stats pipeline

`getCollectionStats` (src/server.js lines 478-518) runs three aggregations on
`DsaQuestions`.  The aggregation pipeline itself is the store boundary the
spec grants in section 6 ("group-aggregate"): `$unwind` of an array field
yields one document per array element — duplicated elements included — and
`$group: \x7b_id, $sum: 1\x7d` yields one entry per distinct value carrying the
number of unwound documents with that value. -/

/-- Distinct values of a list, first occurrence first.  The `seen` accumulator
holds values already emitted. -/
def distinctAux : List String → List String → List String
  | _, [] => []
  | seen, t :: ts =>
      if seen.contains t then distinctAux seen ts
      else t :: distinctAux (t :: seen) ts

/-- Distinct values of a list, in first-appearance order. -/
def distinctTokens (l : List String) : List String :=
  distinctAux [] l

/-- Store boundary, `$group: \x7b_id: value, count: \x7b$sum: 1\x7d\x7d`: one entry per
distinct value, counting its occurrences in the (unwound) input. -/
def groupCount (l : List String) : List (String × Nat) :=
  (distinctTokens l).map fun t => (t, l.count t)

theorem mem_distinctAux (l : List String) :
    ∀ (seen : List String) (s : String),
      s ∈ distinctAux seen l ↔ s ∈ l ∧ s ∉ seen := by
  induction l with
  | nil => intro seen s; simp [distinctAux]
  | cons t ts ih =>
      intro seen s
      simp only [distinctAux]
      by_cases hc : t ∈ seen
      · rw [if_pos (by simpa using hc), ih]
        constructor
        · rintro ⟨hmem, hn⟩; exact ⟨List.mem_cons_of_mem _ hmem, hn⟩
        · rintro ⟨hor, hn⟩
          rcases List.mem_cons.mp hor with rfl | hmem
          · exact absurd hc hn
          · exact ⟨hmem, hn⟩
      · rw [if_neg (by simpa using hc)]
        constructor
        · intro hmem
          rcases List.mem_cons.mp hmem with rfl | hmem2
          · exact ⟨List.mem_cons_self _ _, hc⟩
          · rcases (ih _ _).mp hmem2 with ⟨hmem3, hn⟩
            exact ⟨List.mem_cons_of_mem _ hmem3,
              fun hs => hn (List.mem_cons_of_mem _ hs)⟩
        · rintro ⟨hor, hn⟩
          rcases List.mem_cons.mp hor with rfl | hmem
          · exact List.mem_cons_self _ _
          · by_cases hst : s = t
            · subst hst; exact List.mem_cons_self _ _
            · refine List.mem_cons_of_mem _ ((ih _ _).mpr ⟨hmem, ?_⟩)
              intro hs
              rcases List.mem_cons.mp hs with h1 | h2
              · exact hst h1
              · exact hn h2

theorem mem_distinctTokens (l : List String) (s : String) :
    s ∈ distinctTokens l ↔ s ∈ l := by
  simp [distinctTokens, mem_distinctAux]

theorem mapGet_map_keyed {α : Type} (g : String → α) (keys : List String) (s : String) :
    mapGet (keys.map fun t => (t, g t)) s =
      if s ∈ keys then some (g s) else none := by
  induction keys with
  | nil => simp [mapGet]
  | cons k ks ih =>
      by_cases h : k = s
      · subst h; simp [mapGet]
      · simp [mapGet, h, ih, Ne.symm h]

/-- `mapGet` over a `groupCount` result returns the occurrence count of the
value, or `none` when the value never occurs. -/
theorem mapGet_groupCount (l : List String) (s : String) :
    mapGet (groupCount l) s = if l.count s = 0 then none else some (l.count s) := by
  unfold groupCount
  rw [mapGet_map_keyed]
  by_cases h : s ∈ l
  · simp [mem_distinctTokens, h, Nat.pos_iff_ne_zero.mp (List.count_pos_iff.mpr h)]
  · simp [mem_distinctTokens, h, List.count_eq_zero.mpr h]

/-- A pair in a `groupCount` result carries the occurrence count of its key. -/
theorem snd_eq_count_of_mem_groupCount (l : List String) (p : String × Nat)
    (h : p ∈ groupCount l) : p.2 = l.count p.1 := by
  unfold groupCount at h
  rcases List.mem_map.mp h with ⟨t, _, rfl⟩
  rfl

/-- The stats payload computed by `getCollectionStats`, before string
formatting (the handler renders each list as text). -/
structure CollectionStats where
  totalQuestions : Nat
  levelStats : List (String × Nat)
  dsStats : List (String × Nat)
  algoStats : List (String × Nat)
  deriving DecidableEq, Repr

/-- `getCollectionStats` (src/server.js lines 478-518): `countDocuments`, a
`$group` by `$level`, and for each of `datastructure` and `algorithm` a
`$unwind`, `$group`, `$sort: \x7bcount: -1\x7d`, `$limit: 10` pipeline. -/
def getCollectionStats (db : List QuestionDoc) : CollectionStats :=
  { totalQuestions := db.length
    levelStats := groupCount (db.map fun q => levelToString q.level)
    dsStats := (sortByKeyDesc Prod.snd
        (groupCount (db.flatMap fun q => q.datastructure))).take 10
    algoStats := (sortByKeyDesc Prod.snd
        (groupCount (db.flatMap fun q => q.algorithm))).take 10 }

/-! ## Generic collections: store boundary and server state

The six generic handlers act on `this.dynamicModels` (a JS `Map` from
collection name to mongoose model) and on the database.  A mongoose model is
fixed at creation time: its name (first argument of `mongoose.model`), its
schema, and the physical collection it reads and writes (third argument);
renaming a database collection later does not change an existing model's
collection reference. -/

/-- A generic document: key-value fields plus the store-assigned creation
timestamp. -/
structure Doc where
  fields : List (String × String)
  createdAt : Nat
  deriving DecidableEq, Repr

/-- A mongoose model as the handlers construct it with
`mongoose.model(modelName, schema, collectionRef)`. -/
structure Model where
  modelName : String
  schemaFields : List (String × SchemaField)
  strict : Bool
  collectionRef : String
  deriving DecidableEq, Repr

/-- The database: a map from collection name to its documents; an absent key is
a collection that does not exist. -/
abbrev Store := List (String × List Doc)

/-- The process-wide mutable state of `MongoMCPServer`: the `dynamicModels`
map and the (out-of-scope, boundary-modelled) database. -/
structure ServerState where
  dynamicModels : List (String × Model)
  store : Store
  deriving DecidableEq, Repr

/-- Store boundary (spec section 6, create-collection):
`Model.createCollection()` ensures the physical collection exists. -/
def storeEnsure (st : Store) (name : String) : Store :=
  match mapGet st name with
  | some _ => st
  | none => mapSet st name []

/-- Store boundary (spec section 6, drop-collection):
`db.dropCollection(name)` removes the collection, failing with the driver's
"ns not found" message when it does not exist. -/
def storeDrop (st : Store) (name : String) : Except String Store :=
  match mapGet st name with
  | some _ => .ok (mapDelete st name)
  | none => .error "ns not found"

/-- Store boundary (spec section 6, rename-collection):
`db.collection(o).rename(n)` moves the documents, failing with the driver's
"source namespace does not exist" message when the source is absent and with
"target namespace exists" when the target is present. -/
def storeRename (st : Store) (o n : String) : Except String Store :=
  match mapGet st o with
  | none => .error "source namespace does not exist"
  | some docs =>
      match mapGet st n with
      | some _ => .error "target namespace exists"
      | none => .ok (mapSet (mapDelete st o) n docs)

/-- Store boundary (spec section 6, find): reading an absent collection yields
no documents rather than an error. -/
def storeFind (st : Store) (name : String) : List Doc :=
  (mapGet st name).getD []

/-- Store boundary (spec section 6, insert-one): inserting into an absent
collection creates it implicitly. -/
def storeInsert (st : Store) (name : String) (d : Doc) : Store :=
  mapSet st name (storeFind st name ++ [d])

/-- The schemaless fallback model the generic handlers synthesize on a
`dynamicModels` miss:
`mongoose.model(collectionName + suffix, new mongoose.Schema(\x7b\x7d, \x7bstrict: false, timestamps: true\x7d), collectionName)`.
`getDocuments` uses the suffix `"_Generic"` and `addDocument` uses `"_Add"`;
both bind the empty descriptor set, non-strict, to the physical collection
named by the caller. -/
def genericModelFor (collectionName suffix : String) : Model :=
  ⟨collectionName ++ suffix, [], false, collectionName⟩

/-- `createCollection` (src/server.js lines 544-564): compile the schema,
register the model under the collection name — overwriting any prior entry —
and create the physical collection. -/
def createCollection (s : ServerState) (collectionName : String)
    (schema : List (String × FieldConfig)) : Except String ServerState :=
  let mongooseSchema := createDynamicSchema schema
  let M : Model := ⟨collectionName, mongooseSchema, true, collectionName⟩
  .ok ⟨mapSet s.dynamicModels collectionName M,
       storeEnsure s.store collectionName⟩

/-- `deleteCollection` (src/server.js lines 566-585): drop the physical
collection, then remove the registry entry; a "ns not found" driver error is
translated into the handler's own not-found message, and the registry entry is
not removed in that case (the `delete` follows the failed `await`). -/
def deleteCollection (s : ServerState) (collectionName : String) :
    Except String ServerState :=
  match storeDrop s.store collectionName with
  | .ok st => .ok ⟨mapDelete s.dynamicModels collectionName, st⟩
  | .error e =>
      if e = "ns not found" then
        .error ("Collection \"" ++ collectionName ++ "\" does not exist")
      else
        .error ("Failed to delete collection: " ++ e)

/-- The result of `getDocuments`: which model served the query, and the
documents found. -/
structure QueryResult where
  modelUsed : Model
  documents : List Doc
  deriving DecidableEq, Repr

/-- `getDocuments` (src/server.js lines 587-611): look the collection up in
`dynamicModels`; on a miss, synthesize the schemaless `"_Generic"` model and
cache it; then run `Model.find(filter).limit(limit).sort(sort)` against the
model's physical collection.  Absent `filter` defaults to `\x7b\x7d`, absent
`limit` to `10`; the `sort` argument defaults to `\x7bcreatedAt: -1\x7d`, the
creation-time-descending order modelled here (no claim exercises a custom
sort). -/
def getDocuments (s : ServerState) (collectionName : String)
    (filter : Option (Doc → Bool)) (limit : Option Nat) :
    QueryResult × ServerState :=
  let resolved : Model × ServerState :=
    match mapGet s.dynamicModels collectionName with
    | some m => (m, s)
    | none =>
        let m := genericModelFor collectionName "_Generic"
        (m, ⟨mapSet s.dynamicModels collectionName m, s.store⟩)
  let M := resolved.1
  let s1 := resolved.2
  let docs := (sortByKeyDesc (fun d => d.createdAt)
      ((storeFind s1.store M.collectionRef).filter (filter.getD fun _ => true))).take
      (limit.getD 10)
  (⟨M, docs⟩, s1)

/-- The names of the required primitive fields of a compiled schema; array
fields carry no `required` flag and so never appear. -/
def requiredPrimFields : List (String × SchemaField) → List String
  | [] => []
  | (n, .prim _ true) :: rest => n :: requiredPrimFields rest
  | _ :: rest => requiredPrimFields rest

/-- Store boundary (mongoose `save` validation): a document passes when every
required field of the model's schema is present.  The schemaless fallback
models have no schema paths, so they validate every document. -/
def validateDoc (M : Model) (d : Doc) : Bool :=
  (requiredPrimFields M.schemaFields).all fun n => (mapGet d.fields n).isSome

/-- The result of `addDocument`: which model performed the insert, and the
saved document. -/
structure InsertResult where
  modelUsed : Model
  savedDoc : Doc
  deriving DecidableEq, Repr

/-- `addDocument` (src/server.js lines 613-637): look the collection up in
`dynamicModels`; on a miss, synthesize the schemaless `"_Add"` model and cache
it; then `new Model(document).save()` — validate and insert into the model's
physical collection. -/
def addDocument (s : ServerState) (collectionName : String) (document : Doc) :
    Except String (InsertResult × ServerState) :=
  let resolved : Model × ServerState :=
    match mapGet s.dynamicModels collectionName with
    | some m => (m, s)
    | none =>
        let m := genericModelFor collectionName "_Add"
        (m, ⟨mapSet s.dynamicModels collectionName m, s.store⟩)
  let M := resolved.1
  let s1 := resolved.2
  if validateDoc M document then
    .ok (⟨M, document⟩,
         ⟨s1.dynamicModels, storeInsert s1.store M.collectionRef document⟩)
  else
    .error ("Failed to add document to " ++ collectionName ++ ": validation failed")

/-- `updateCollectionName` (src/server.js lines 639-664): rename the physical
collection, then move the `dynamicModels` entry from the old name to the new
one when present (the moved model keeps its original `collectionRef`); the
driver's "source namespace does not exist" error is translated into the
handler's own not-found message. -/
def updateCollectionName (s : ServerState) (oldName newName : String) :
    Except String ServerState :=
  match storeRename s.store oldName newName with
  | .ok st =>
      let dm :=
        match mapGet s.dynamicModels oldName with
        | some m => mapSet (mapDelete s.dynamicModels oldName) newName m
        | none => s.dynamicModels
      .ok ⟨dm, st⟩
  | .error e =>
      if e = "source namespace does not exist" then
        .error ("Collection \"" ++ oldName ++ "\" does not exist")
      else
        .error ("Failed to rename collection: " ++ e)

/-! ## Claim C1 -/

/-- C1 counterexample: the dispatcher does not expose eleven operations — the
advertised tool list has nine entries, and the two fixed-schema operations the
claim enumerates beyond them (an add-many and a delete-by-id operation) have
no handler under any plausible name: the dispatch switch resolves no name
outside the nine advertised ones, in particular none of these. -/
theorem dispatcher_not_eleven_ops :
    advertisedToolNames.length ≠ 11
    ∧ resolveOp "add_multiple_dsa_questions" = none
    ∧ resolveOp "add_dsa_questions" = none
    ∧ resolveOp "delete_dsa_question" = none
    ∧ resolveOp "delete_dsa_question_by_id" = none := by
  refine ⟨by decide, by decide, by decide, by decide, by decide⟩

/-- C1 (amended): the operation dispatcher exposes exactly nine named
operations — three fixed-schema question operations (add one, query with
filters, aggregate stats) and six generic collection operations — every
advertised name resolves to a handler, and no other name does. -/
theorem dispatcher_exposes_nine_ops :
    advertisedToolNames.length = 9
    ∧ advertisedToolNames.Nodup
    ∧ (∀ n ∈ advertisedToolNames, (resolveOp n).isSome)
    ∧ (∀ n : String, (resolveOp n).isSome → n ∈ advertisedToolNames) := by
  refine ⟨by decide, by decide, by decide, ?_⟩
  intro n h
  unfold resolveOp at h
  split_ifs at h with h1 h2 h3 h4 h5 h6 h7 h8 h9
  · subst h1; decide
  · subst h2; decide
  · subst h3; decide
  · subst h4; decide
  · subst h5; decide
  · subst h6; decide
  · subst h7; decide
  · subst h8; decide
  · subst h9; decide
  · simp at h

/-- Witness for C1's amended theorem at the first advertised name. -/
theorem dispatcher_exposes_nine_ops_witness :
    ("add_dsa_question" ∈ advertisedToolNames)
    ∧ (resolveOp "add_dsa_question").isSome :=
  ⟨by decide, dispatcher_exposes_nine_ops.2.2.1 "add_dsa_question" (by decide)⟩

/-! ## Claim C3 -/

/-- C3 counterexample: dispatching the unknown name "drop_everything" does not
surface a distinct unknown-operation error class.  The `McpError` thrown with
`ErrorCode.MethodNotFound` at the `default` branch is caught by the
surrounding `catch` and rethrown with `ErrorCode.InternalError` — exactly the
code every wrapped handler failure carries, so the surfaced class coincides
with the catch-all `HandlerError` class instead of being distinct from it. -/
theorem unknownOp_not_distinct_class :
    callTool "drop_everything" =
      .failed ⟨.internalError, "Tool execution failed: Unknown tool: drop_everything"⟩
    ∧ (wrapCaught "some handler failure").code = .internalError := by
  refine ⟨by decide, rfl⟩

/-- C3 (amended): for every unrecognized operation name, no handler is
invoked, and the dispatch fails; but the failure reaches the caller rewrapped
by the `catch` into the uniform `InternalError` envelope — the same error
class as wrapped handler failures — carrying the unknown-tool message, rather
than as a distinct unknown-operation class. -/
theorem unknownOp_wrapped_no_handler (name : String) (h : resolveOp name = none) :
    callTool name =
      .failed ⟨.internalError, "Tool execution failed: " ++ ("Unknown tool: " ++ name)⟩
    ∧ ∀ hdl : OpHandler, callTool name ≠ .invoked hdl := by
  have hbody : dispatchBody name = .failed ⟨.methodNotFound, "Unknown tool: " ++ name⟩ := by
    unfold dispatchBody; rw [h]
  constructor
  · unfold callTool; rw [hbody]; rfl
  · intro hdl hcontra
    unfold callTool at hcontra
    rw [hbody] at hcontra
    exact DispatchOutcome.noConfusion hcontra

/-- Witness for C3's amended theorem at the name "drop_the_database". -/
theorem unknownOp_wrapped_no_handler_witness :
    resolveOp "drop_the_database" = none
    ∧ callTool "drop_the_database" =
        .failed ⟨.internalError,
          "Tool execution failed: " ++ ("Unknown tool: " ++ "drop_the_database")⟩ :=
  ⟨by decide, (unknownOp_wrapped_no_handler "drop_the_database" (by decide)).1⟩

/-! ## Claim C10 -/

/-- C10: in every dynamically built schema, a field of kind `Array` compiles to
a bare item-typed array — the `arrayOf` form, which carries no `required` flag,
so the caller's `required` entry is dropped — and every `itemType` other than
`String` and `Number`, including the `Boolean` value the advertised
`create_collection` input schema accepts, produces an array of untyped
(`Mixed`) items. -/
theorem arrayField_untyped_unrequired (fc : FieldConfig) (h : fc.type = "Array") :
    (∃ it, compileField fc = some (.arrayOf it))
    ∧ (∀ t r, compileField fc ≠ some (.prim t r))
    ∧ (fc.itemType ≠ some "String" → fc.itemType ≠ some "Number" →
        compileField fc = some (.arrayOf .mixed))
    ∧ "Boolean" ∈ itemTypeEnum := by
  have hgen : ∀ P : Option SchemaField → Prop,
      (∀ it, P (some (.arrayOf it))) → P (compileField fc) := by
    intro P hP
    unfold compileField
    rw [h]
    by_cases h1 : fc.itemType = some "String"
    · simp [h1]; exact hP _
    · by_cases h2 : fc.itemType = some "Number"
      · simp [h1, h2]; exact hP _
      · simp [h1, h2]; exact hP _
  refine ⟨?_, ?_, ?_, by decide⟩
  · exact hgen (fun o => ∃ it, o = some (.arrayOf it)) fun it => ⟨it, rfl⟩
  · exact hgen (fun o => ∀ t r, o ≠ some (.prim t r)) fun it t r hc => by
      exact SchemaField.noConfusion (Option.some.inj hc)
  · intro h1 h2
    unfold compileField
    rw [h]
    simp [h1, h2]

/-- Witness for C10 at the field
`\x7b type: "Array", required: true, itemType: "Boolean" \x7d`. -/
theorem arrayField_untyped_unrequired_witness :
    compileField ⟨"Array", some true, some "Boolean"⟩ = some (.arrayOf .mixed)
    ∧ "Boolean" ∈ itemTypeEnum :=
  ⟨(arrayField_untyped_unrequired ⟨"Array", some true, some "Boolean"⟩ rfl).2.2.1
      (by decide) (by decide),
   (arrayField_untyped_unrequired ⟨"Array", some true, some "Boolean"⟩ rfl).2.2.2⟩

/-! ## Claim C9 -/

/-- C9: every `get_dsa_questions` result comes from the stored collection and
satisfies the built query — a supplied level filter is an exact match, a
supplied datastructure or algorithm filter is a membership test against the
stored token sequence — the result length is capped by the caller-supplied
limit (default 10), and the result is sorted by creation time, most recent
first.  A supplied filter value means a truthy one: the handler's
`if (filter.level)` guards skip absent and empty-string values. -/
theorem getDsaQuestions_spec (db : List QuestionDoc) (filter : Option DsaFilter)
    (limit : Option Nat) :
    (∀ q ∈ getDsaQuestions db filter limit,
        q ∈ db ∧ matchesDsaQuery (filter.getD emptyDsaFilter) q = true)
    ∧ (∀ q ∈ getDsaQuestions db filter limit, ∀ l,
        truthyStr (filter.getD emptyDsaFilter).level = some l →
        levelToString q.level = l)
    ∧ (∀ q ∈ getDsaQuestions db filter limit, ∀ d,
        truthyStr (filter.getD emptyDsaFilter).datastructure = some d →
        d ∈ q.datastructure)
    ∧ (∀ q ∈ getDsaQuestions db filter limit, ∀ a,
        truthyStr (filter.getD emptyDsaFilter).algorithm = some a →
        a ∈ q.algorithm)
    ∧ (getDsaQuestions db filter limit).length ≤ limit.getD 10
    ∧ (getDsaQuestions db filter limit).Pairwise
        fun a b => b.createdAt ≤ a.createdAt := by
  set f := filter.getD emptyDsaFilter with hf
  have hmem : ∀ q ∈ getDsaQuestions db filter limit,
      q ∈ db ∧ matchesDsaQuery f q = true := by
    intro q hq
    have h1 : q ∈ sortByKeyDesc (fun q => q.createdAt)
        (db.filter (matchesDsaQuery f)) := by
      have := List.take_subset (limit.getD 10)
        (sortByKeyDesc (fun q => q.createdAt) (db.filter (matchesDsaQuery f)))
      exact this hq
    have h2 : q ∈ db.filter (matchesDsaQuery f) :=
      (mem_sortByKeyDesc _ _ _).mp h1
    exact ⟨(List.mem_filter.mp h2).1, (List.mem_filter.mp h2).2⟩
  have hsplit : ∀ q : QuestionDoc, matchesDsaQuery f q = true →
      (match truthyStr f.level with
       | some l => levelToString q.level == l
       | none => true) = true
      ∧ (match truthyStr f.datastructure with
         | some d => q.datastructure.contains d
         | none => true) = true
      ∧ (match truthyStr f.algorithm with
         | some a => q.algorithm.contains a
         | none => true) = true := by
    intro q hm
    unfold matchesDsaQuery at hm
    rcases Bool.and_eq_true_iff.mp hm with ⟨hm1, hm3⟩
    rcases Bool.and_eq_true_iff.mp hm1 with ⟨hm4, hm5⟩
    exact ⟨hm4, hm5, hm3⟩
  refine ⟨hmem, ?_, ?_, ?_, ?_, ?_⟩
  · intro q hq l hl
    have h3 := (hsplit q (hmem q hq).2).1
    rw [hl] at h3
    exact eq_of_beq h3
  · intro q hq d hd
    have h3 := (hsplit q (hmem q hq).2).2.1
    rw [hd] at h3
    simpa using h3
  · intro q hq a ha
    have h3 := (hsplit q (hmem q hq).2).2.2
    rw [ha] at h3
    simpa using h3
  · exact List.length_take_le _ _
  · exact (sorted_sortByKeyDesc _ _).sublist (List.take_sublist _ _)

/-- Three example question records (the third has no "array" token). -/
def exQ1 : QuestionDoc :=
  ⟨"two-sum", "find two numbers", ["array", "hash table"], ["hashing"],
   "n up to 10000", [⟨"[2,7,11,15], 9", "[0,1]"⟩], .easy, 1⟩

def exQ2 : QuestionDoc :=
  ⟨"lis", "longest increasing subsequence", ["array"], ["dynamic programming"],
   "n up to 2500", [], .medium, 2⟩

def exQ3 : QuestionDoc :=
  ⟨"islands", "count islands", ["graph"], ["bfs"], "grid up to 300x300", [],
   .easy, 3⟩

/-- An example question collection. -/
def exDsaDb : List QuestionDoc := [exQ1, exQ2, exQ3]

/-- An example filter: easy questions using the "array" datastructure. -/
def exFilter : DsaFilter := ⟨some "easy", some "array", none⟩

/-- Witness for C9: on the example collection, the filtered query returns
`exQ1`, which is stored, matches the query, and has level "easy". -/
theorem getDsaQuestions_spec_witness :
    exQ1 ∈ exDsaDb ∧ matchesDsaQuery exFilter exQ1 = true
    ∧ levelToString exQ1.level = "easy" :=
  have hs := getDsaQuestions_spec exDsaDb (some exFilter) none
  have hmem : exQ1 ∈ getDsaQuestions exDsaDb (some exFilter) none := by decide
  ⟨(hs.1 exQ1 hmem).1, (hs.1 exQ1 hmem).2, hs.2.1 exQ1 hmem "easy" (by decide)⟩

/-! ## Claim C8 -/

/-- Counting a level string over the mapped collection is counting records
with that level. -/
theorem count_level_map (db : List QuestionDoc) (lvl : Level) :
    (db.map fun q => levelToString q.level).count (levelToString lvl) =
      (db.filter fun q => q.level == lvl).length := by
  induction db with
  | nil => rfl
  | cons q rest ih =>
      have hbe : (levelToString q.level == levelToString lvl) = (q.level == lvl) := by
        cases hq : q.level <;> cases hl : lvl <;> decide
      cases h : (q.level == lvl) with
      | true =>
          simp only [List.map_cons, List.count_cons, List.filter_cons, hbe, h,
            if_true, List.length_cons, ih]
      | false =>
          simp only [List.map_cons, List.count_cons, List.filter_cons, hbe, h,
            Bool.false_eq_true, if_false, ih, Nat.add_zero]

/-- C8 (amended): `get_collection_stats` returns the total record count, a
per-level breakdown counting the records of each level, and for each of
`datastructure` and `algorithm` at most ten buckets in descending count order
in which each token is counted once per OCCURRENCE — a record listing the same
token several times contributes that many, not one (the pipeline is `$unwind`
then `$group`, so duplicated array entries are separate unwound documents). -/
theorem getCollectionStats_spec (db : List QuestionDoc) :
    (getCollectionStats db).totalQuestions = db.length
    ∧ (∀ lvl : Level,
        mapGet (getCollectionStats db).levelStats (levelToString lvl) =
          if (db.filter fun q => q.level == lvl).length = 0 then none
          else some (db.filter fun q => q.level == lvl).length)
    ∧ (getCollectionStats db).dsStats.length ≤ 10
    ∧ (getCollectionStats db).dsStats.Pairwise (fun a b => b.2 ≤ a.2)
    ∧ (∀ p ∈ (getCollectionStats db).dsStats,
        p.2 = (db.flatMap fun q => q.datastructure).count p.1)
    ∧ (getCollectionStats db).algoStats.length ≤ 10
    ∧ (getCollectionStats db).algoStats.Pairwise (fun a b => b.2 ≤ a.2)
    ∧ (∀ p ∈ (getCollectionStats db).algoStats,
        p.2 = (db.flatMap fun q => q.algorithm).count p.1) := by
  have htok : ∀ l : List String, ∀ p : String × Nat,
      p ∈ (sortByKeyDesc Prod.snd (groupCount l)).take 10 → p.2 = l.count p.1 := by
    intro l p hp
    have h1 : p ∈ sortByKeyDesc Prod.snd (groupCount l) :=
      List.take_subset _ _ hp
    exact snd_eq_count_of_mem_groupCount l p ((mem_sortByKeyDesc _ _ _).mp h1)
  refine ⟨rfl, ?_, ?_, ?_, ?_, ?_, ?_, ?_⟩
  · intro lvl
    show mapGet (groupCount (db.map fun q => levelToString q.level)) (levelToString lvl) = _
    rw [mapGet_groupCount, count_level_map]
  · exact List.length_take_le _ _
  · exact (sorted_sortByKeyDesc Prod.snd _).sublist (List.take_sublist _ _)
  · exact htok _
  · exact List.length_take_le _ _
  · exact (sorted_sortByKeyDesc Prod.snd _).sublist (List.take_sublist _ _)
  · exact htok _

/-- Witness for C8's amended theorem: on the example collection
(levels easy, medium, easy; datastructure tokens
[array, hash table], [array], [graph]), the "array" bucket holds the
occurrence count 2, and the easy-level entry holds 2. -/
theorem getCollectionStats_spec_witness :
    ("array", 2) ∈ (getCollectionStats exDsaDb).dsStats
    ∧ (2 : Nat) = (exDsaDb.flatMap fun q => q.datastructure).count "array"
    ∧ mapGet (getCollectionStats exDsaDb).levelStats "easy" = some 2 :=
  have hs := getCollectionStats_spec exDsaDb
  have hmem : ("array", 2) ∈ (getCollectionStats exDsaDb).dsStats := by decide
  ⟨hmem, hs.2.2.2.2.1 ("array", 2) hmem, by
    have h2 := hs.2.1 Level.easy
    simpa using h2⟩

/-- A collection with a single record listing the token "array" twice. -/
def dupTokenDb : List QuestionDoc :=
  [⟨"dup", "a record with a duplicated token", ["array", "array"], ["scan"],
    "none", [], .easy, 0⟩]

/-- C8 counterexample: one record whose `datastructure` lists "array" twice
produces the bucket `("array", 2)` — the token is counted per occurrence, so a
record listing the same token multiple times contributes more than 1,
contradicting the claim's at-most-once-per-record counting. -/
theorem stats_duplicate_token_counted_twice :
    dupTokenDb.length = 1
    ∧ (getCollectionStats dupTokenDb).dsStats = [("array", 2)]
    ∧ mapGet (getCollectionStats dupTokenDb).dsStats "array" ≠ some 1 := by
  refine ⟨rfl, by decide, by decide⟩

/-! ## Claim C2 -/

/-- After `storeEnsure`, the collection exists. -/
theorem storeEnsure_isSome (st : Store) (n : String) :
    (mapGet (storeEnsure st n) n).isSome := by
  unfold storeEnsure
  cases h : mapGet st n with
  | some docs => simp [h]
  | none => simp [mapGet_mapSet_self]

/-- A descriptor set with `itemType` on a non-array kind and an unrecognized
kind. -/
def invalidSchemaDef : List (String × FieldConfig) :=
  [("age", ⟨"String", none, some "Number"⟩),
   ("pets", ⟨"Garbage", some true, none⟩)]

/-- C2 counterexample: on a descriptor set where `itemKind` is set while
`kind ≠ array` ("age") and a `kind` is unrecognized ("pets"),
`create_collection` does not fail with `InvalidDescriptor`; it succeeds,
registers a binding (the stray `itemType` silently ignored, the unrecognized
field silently dropped), and creates the collection — the store is mutated. -/
theorem create_collection_invalid_descriptor_succeeds :
    validDescriptorSet invalidSchemaDef = false
    ∧ createCollection ⟨[], []⟩ "people" invalidSchemaDef =
        .ok ⟨[("people", ⟨"people", [("age", .prim .string false)], true, "people"⟩)],
             [("people", [])]⟩ := by
  refine ⟨by decide, rfl⟩

/-- C2 (amended): `create_collection` (Registry.define) never fails with
`InvalidDescriptor` — for every descriptor set it succeeds, registers a strict
binding for the compiled schema, and ensures the collection exists.  A field
whose `itemKind` is set while its kind is not array keeps its kind and the
`itemKind` is silently ignored; a field with an unrecognized kind is silently
omitted from the compiled schema. -/
theorem createCollection_never_invalid_descriptor (s : ServerState) (name : String)
    (d : List (String × FieldConfig)) :
    (∃ s1 : ServerState,
        createCollection s name d = .ok s1
        ∧ mapGet s1.dynamicModels name = some ⟨name, createDynamicSchema d, true, name⟩
        ∧ (mapGet s1.store name).isSome)
    ∧ (∀ fc : FieldConfig, fc.type = "String" →
        compileField fc = some (.prim .string (fc.required.getD false)))
    ∧ (∀ fc : FieldConfig,
        fc.type ∉ (["String", "Number", "Boolean", "Date", "Array", "Object"] : List String) →
        compileField fc = none) := by
  refine ⟨⟨_, rfl, mapGet_mapSet_self _ _ _, storeEnsure_isSome _ _⟩, ?_, ?_⟩
  · intro fc h
    unfold compileField
    rw [h]
    simp
  · intro fc h
    simp only [List.mem_cons, List.not_mem_nil, or_false] at h
    push_neg at h
    obtain ⟨h1, h2, h3, h4, h5, h6⟩ := h
    unfold compileField
    simp [h1, h2, h3, h4, h5, h6]

/-- Witness for C2's amended theorem: the two fields of the invalid
descriptor set, compiled. -/
theorem createCollection_never_invalid_descriptor_witness :
    compileField ⟨"String", none, some "Number"⟩ = some (.prim .string false)
    ∧ compileField ⟨"Garbage", some true, none⟩ = none :=
  ⟨by simpa using
      (createCollection_never_invalid_descriptor ⟨[], []⟩ "w" invalidSchemaDef).2.1
        ⟨"String", none, some "Number"⟩ rfl,
   (createCollection_never_invalid_descriptor ⟨[], []⟩ "w" invalidSchemaDef).2.2
      ⟨"Garbage", some true, none⟩ (by decide)⟩

/-! ## Claim C5 -/

/-- C5: for a collection name that already has a registered binding, calling
`create_collection` again with a new valid descriptor set succeeds and
replaces the prior binding with the strict binding compiled from the new
descriptor set alone — last-write-wins, no merge and no error. -/
theorem createCollection_redefine_lastWriteWins (s : ServerState) (name : String)
    (d1 d2 : List (String × FieldConfig)) (h2 : validDescriptorSet d2 = true) :
    ∃ s1 s2 : ServerState,
      createCollection s name d1 = .ok s1
      ∧ createCollection s1 name d2 = .ok s2
      ∧ mapGet s2.dynamicModels name =
          some ⟨name, createDynamicSchema d2, true, name⟩ := by
  exact ⟨_, _, rfl, rfl, mapGet_mapSet_self _ _ _⟩

/-- Witness for C5: define "users" with a string field, then redefine it with
a required number field; the binding afterwards is the one compiled from the
second descriptor set. -/
theorem createCollection_redefine_lastWriteWins_witness :
    validDescriptorSet [("age", ⟨"Number", some true, none⟩)] = true
    ∧ ∃ s1 s2 : ServerState,
        createCollection ⟨[], []⟩ "users" [("name", ⟨"String", none, none⟩)] = .ok s1
        ∧ createCollection s1 "users" [("age", ⟨"Number", some true, none⟩)] = .ok s2
        ∧ mapGet s2.dynamicModels "users" =
            some ⟨"users", createDynamicSchema [("age", ⟨"Number", some true, none⟩)],
                  true, "users"⟩ :=
  ⟨by decide,
   createCollection_redefine_lastWriteWins ⟨[], []⟩ "users"
     [("name", ⟨"String", none, none⟩)] [("age", ⟨"Number", some true, none⟩)]
     (by decide)⟩

/-! ## Claim C6 -/

/-- C6: the first `get_documents` call against a never-defined collection name
does not fail — `getDocuments` always returns a result — and synthesizes and
caches the non-strict, empty-descriptor `"_Generic"` binding; a repeated call
finds the cached binding, uses the same model, and leaves the state unchanged
rather than constructing a new binding. -/
theorem getDocuments_fallback_idempotent (s : ServerState) (name : String)
    (filter : Option (Doc → Bool)) (limit : Option Nat)
    (h : mapGet s.dynamicModels name = none) :
    (getDocuments s name filter limit).1.modelUsed = genericModelFor name "_Generic"
    ∧ (genericModelFor name "_Generic").strict = false
    ∧ (genericModelFor name "_Generic").schemaFields = []
    ∧ mapGet ((getDocuments s name filter limit).2).dynamicModels name =
        some (genericModelFor name "_Generic")
    ∧ (getDocuments ((getDocuments s name filter limit).2) name filter limit).1.modelUsed
        = (getDocuments s name filter limit).1.modelUsed
    ∧ (getDocuments ((getDocuments s name filter limit).2) name filter limit).2
        = (getDocuments s name filter limit).2 := by
  simp [getDocuments, h, genericModelFor]

/-- An example state whose store holds a collection "orphan" never defined
through `create_collection`. -/
def exOrphanState : ServerState :=
  ⟨[], [("orphan", [⟨[("k", "v")], 1⟩])]⟩

/-- Witness for C6 at the "orphan" collection. -/
theorem getDocuments_fallback_idempotent_witness :
    mapGet exOrphanState.dynamicModels "orphan" = none
    ∧ (getDocuments exOrphanState "orphan" none none).1.modelUsed =
        genericModelFor "orphan" "_Generic"
    ∧ (getDocuments ((getDocuments exOrphanState "orphan" none none).2)
        "orphan" none none).2 = (getDocuments exOrphanState "orphan" none none).2 :=
  ⟨by decide,
   (getDocuments_fallback_idempotent exOrphanState "orphan" none none (by decide)).1,
   (getDocuments_fallback_idempotent exOrphanState "orphan" none none
      (by decide)).2.2.2.2.2⟩

/-! ## Claim C4 -/

/-- C4: once `delete_collection` has removed a binding, the registry holds no
entry for the name, and a subsequent generic operation on that name does not
fail — `get_documents` synthesizes (and caches) a fresh schemaless
`"_Generic"` binding bound to the caller's name, and `add_document` succeeds
through a fresh schemaless `"_Add"` binding — so no stale binding pointing at
the dropped collection is left behind. -/
theorem deleteCollection_no_stale_binding (s : ServerState) (name : String)
    (hnd : (mapKeys s.dynamicModels).Nodup)
    (hstore : (mapGet s.store name).isSome) :
    ∃ s1 : ServerState,
      deleteCollection s name = .ok s1
      ∧ mapGet s1.dynamicModels name = none
      ∧ (getDocuments s1 name none none).1.modelUsed = genericModelFor name "_Generic"
      ∧ mapGet ((getDocuments s1 name none none).2).dynamicModels name =
          some (genericModelFor name "_Generic")
      ∧ ∀ d : Doc, ∃ r, addDocument s1 name d = .ok r
          ∧ r.1.modelUsed = genericModelFor name "_Add" := by
  obtain ⟨docs, hd⟩ := Option.isSome_iff_exists.mp hstore
  have hdrop : storeDrop s.store name = .ok (mapDelete s.store name) := by
    unfold storeDrop
    rw [hd]
  have hnone : mapGet (mapDelete s.dynamicModels name) name = none :=
    mapGet_mapDelete_self _ _ hnd
  refine ⟨⟨mapDelete s.dynamicModels name, mapDelete s.store name⟩, ?_, hnone, ?_, ?_, ?_⟩
  · unfold deleteCollection
    rw [hdrop]
  · simp only [getDocuments, hnone]
  · simp only [getDocuments, hnone, mapGet_mapSet_self]
  · intro d
    refine ⟨(⟨genericModelFor name "_Add", d⟩,
      ⟨mapSet (mapDelete s.dynamicModels name) name (genericModelFor name "_Add"),
       storeInsert (mapDelete s.store name) name d⟩), ?_, rfl⟩
    simp only [addDocument, hnone]
    rfl

/-- A state holding a binding and documents for "users". -/
def exUsersState : ServerState :=
  ⟨[("users", genericModelFor "users" "_Generic")], [("users", [⟨[("a", "1")], 4⟩])]⟩

/-- Witness for C4 at the "users" collection of the example state. -/
theorem deleteCollection_no_stale_binding_witness :
    (mapKeys exUsersState.dynamicModels).Nodup
    ∧ (mapGet exUsersState.store "users").isSome
    ∧ ∃ s1 : ServerState,
        deleteCollection exUsersState "users" = .ok s1
        ∧ mapGet s1.dynamicModels "users" = none
        ∧ (getDocuments s1 "users" none none).1.modelUsed =
            genericModelFor "users" "_Generic"
        ∧ mapGet ((getDocuments s1 "users" none none).2).dynamicModels "users" =
            some (genericModelFor "users" "_Generic")
        ∧ ∀ d : Doc, ∃ r, addDocument s1 "users" d = .ok r
            ∧ r.1.modelUsed = genericModelFor "users" "_Add" :=
  ⟨by decide, by decide,
   deleteCollection_no_stale_binding exUsersState "users" (by decide) (by decide)⟩

/-! ## Claim C7 -/

/-- A document stored under "users" before the rename. -/
def exRenameDoc : Doc := ⟨[("title", "intro")], 5⟩

/-- A state whose store holds "users" with one document and no binding yet. -/
def renameStart : ServerState := ⟨[], [("users", [exRenameDoc])]⟩

/-- The state after one `get_documents` call against "users" has cached the
schemaless binding for it. -/
def renameCached : ServerState := (getDocuments renameStart "users" none none).2

/-- C7 fails on the code: after `update_collection_name` renames "users" to
"members", the registry part of the claim holds — the binding moved from
"users" (now unbound) to "members" — but the moved model still reads the
physical collection "users" (`collectionRef` is fixed at model creation), so
`get_documents` against "members" queries the now-nonexistent old namespace
and returns NO documents even though the renamed collection holds one.  The
spec's intent (the documents of the renamed collection are returned) is
clearly what moving the binding is for; the stale collection reference is a
slip in the code. -/
theorem rename_stale_collectionRef_bug :
    ∃ s2 : ServerState,
      updateCollectionName renameCached "users" "members" = .ok s2
      ∧ mapGet s2.dynamicModels "members" = some (genericModelFor "users" "_Generic")
      ∧ mapGet s2.dynamicModels "users" = none
      ∧ mapGet s2.store "members" = some [exRenameDoc]
      ∧ mapGet s2.store "users" = none
      ∧ (getDocuments s2 "members" none none).1.modelUsed.collectionRef = "users"
      ∧ (getDocuments s2 "members" none none).1.documents = [] := by
  refine ⟨⟨[("members", genericModelFor "users" "_Generic")],
           [("members", [exRenameDoc])]⟩, ?_, ?_, ?_, ?_, ?_, ?_, ?_⟩
  · rfl
  · decide
  · decide
  · decide
  · decide
  · decide
  · decide

end MongoMcp
